import Mathlib

/-!
Verification of the big-VM admission-control filter set and the vCenter
host-state glue of this nova fork.

The filter implementation (`nova/scheduler/filters/bigvm_filter.py`) is not
part of the available sources; only its unit tests are
(`nova/tests/unit/scheduler/filters/test_bigvm_filters.py`).  The filter
components are therefore modelled from the specification, with the in-tree
unit tests constraining every choice the spec leaves open.  The vCenter glue
(`nova/virt/vmwareapi/host.py`) is embedded directly from its source.

Machine arithmetic: the Python code computes sizes and percentages with
arbitrary-precision ints and float division; the embedding uses `ℚ`
throughout, which is exact for every value the tests and claims exercise.
-/

namespace BigVm

/-- Process-wide configuration of the big-VM filters.
Modelled from the spec: `bigVmThresholdMB`, `hvSizeCacheRetentionSeconds`,
`tolerancePercent`, `fractionTable`, `useFlavorExtraSpecsForFraction`,
`extraSpecsFractionKey` (spec §6 Configuration). -/
structure Config where
  bigvm_mb : ℚ
  hv_size_cache_retention_time : ℕ
  hv_size_tolerance_percent : ℚ
  host_fractions : List (String × ℚ)
  use_flavor_extra_specs : Bool
  extra_specs_key : String

/-- A candidate host as handed to a filter by the scheduling harness
(spec §3 HostCandidate; `fakes.FakeHostState` in the tests).
`free_ram_mb`/`total_usable_ram_mb` are cluster aggregates in this
filter's usage. -/
structure HostState where
  uuid : String
  free_ram_mb : ℚ
  total_usable_ram_mb : ℚ
  ram_allocation_ratio : Option ℚ

/-- The placement request (spec §3 PlacementRequest; `objects.RequestSpec`
with a flavor in the tests). -/
structure RequestSpec where
  memory_mb : ℚ
  extra_specs : List (String × String)
  flavor_name : String

/-- A request is baremetal iff its extra specs carry a CPU-architecture
capability key (spec §3: "isBaremetal (derived: presence of a
CPU-architecture capability key in extraSpecs)"; the tests use
`capabilities:cpu_arch`). -/
def is_baremetal (req : RequestSpec) : Bool :=
  (req.extra_specs.lookup "capabilities:cpu_arch").isSome

/-- The per-host HV-size cache (spec §3 HVSizeCacheEntry / §4.1): a table
from host uuid to resolved size (`none` = cached "unresolvable"), plus a
single last-modified marker for the whole table. -/
structure HVCache where
  entries : List (String × Option ℚ)
  last_modified : ℕ

/-- Outcome of one inventory lookup (spec §6: `getInventory(hostID) →
{resourceClass → {maxUnit, ...}} | null | {}`).  `err` stands for the
service-level error / unreachable case; `resp` carries the per-resource-class
`max_unit` values (`none` inside = record without a numeric ceiling field). -/
inductive InvResp where
  | err : InvResp
  | resp (inventories : List (String × Option ℚ)) : InvResp

/-- Modelled from the spec (§4.1 query-outcome policy; the implementation
`BigVmBaseFilter._get_hv_size` is not in the sources): extract the memory
ceiling from an inventory response — `none` on service error, absent
`MEMORY_MB` class, or missing ceiling field. -/
def extract_hv_size : InvResp → Option ℚ
  | InvResp.err => none
  | InvResp.resp inventories =>
      match inventories.lookup "MEMORY_MB" with
      | none => none
      | some ceiling => ceiling

/-- Modelled from the spec (§4.1 `resolve`; the implementation
`BigVmBaseFilter._get_hv_size` is not in the sources): resolve a host's HV
size against a TTL cache with a single table-wide last-modified marker.
Returns the resolved size, the new cache, and how many inventory queries
were made.  Once the marker is older than the retention window the whole
table is rebuilt (spec §4.1: an expired marker forces a fresh query for all
subsequent lookups, and the marker is updated when the table is rebuilt). -/
def get_hv_size (cfg : Config) (cache : HVCache) (now : ℕ) (query : InvResp)
    (host : HostState) : Option ℚ × HVCache × ℕ :=
  if cfg.hv_size_cache_retention_time < now - cache.last_modified then
    let hv := extract_hv_size query
    (hv, ⟨[(host.uuid, hv)], now⟩, 1)
  else
    match cache.entries.lookup host.uuid with
    | some v => (v, cache, 0)
    | none =>
        let hv := extract_hv_size query
        (hv, ⟨(host.uuid, hv) :: cache.entries, cache.last_modified⟩, 1)

namespace BigVmClusterUtilizationFilter

/-- Modelled from the spec (§4.2 step 3; `_get_max_ram_percent` is not in
the sources): the maximum allowed cluster RAM utilization, a monotonically
decreasing function of `requested / hvSize` that is strictest at ratio 1 and
approaches (without reaching) 100% as the ratio approaches 0.  Instantiated
as the linear curve under which the cluster keeps, on average per
HV-size-worth of RAM, half the requested size free — the reading the test
comment "not enough (~50 % of the requested size on average)" fixes. -/
def get_max_ram_percent (requested_ram_mb hypervisor_ram_mb : ℚ) : ℚ :=
  100 - 50 * (requested_ram_mb / hypervisor_ram_mb)

/-- Modelled from the spec (§4.2 `hostPasses`; the implementation is not in
the sources): bypass for small or baremetal requests, fail on unresolvable
HV size, fail closed on a zero-size cluster, otherwise pass iff the
cluster's used-RAM percentage does not exceed the size-scaled threshold.
The boundary uses no additional fixed margin: the in-tree test
`test_big_vm_with_enough_ram` passes a host whose free RAM sits exactly at
`total - total * maxRamPercent / 100`, which a subtracted slack would
reject. -/
def host_passes (cfg : Config) (cache : HVCache) (now : ℕ) (query : InvResp)
    (host : HostState) (req : RequestSpec) : Bool :=
  if req.memory_mb < cfg.bigvm_mb then true
  else if is_baremetal req then true
  else
    match (get_hv_size cfg cache now query host).1 with
    | none => false
    | some hv_size_mb =>
        if host.total_usable_ram_mb = 0 then false
        else
          let used_ram_mb := host.total_usable_ram_mb - host.free_ram_mb
          let used_ram_percent := used_ram_mb / host.total_usable_ram_mb * 100
          let max_ram_percent := get_max_ram_percent req.memory_mb hv_size_mb
          decide (used_ram_percent ≤ max_ram_percent)

/-- The pass rule exactly as one sentence of the spec words it (§4.2 step 5:
"a few hundred MB of slack is reserved before the boundary ... a fixed
constant applied when computing the pass/fail boundary"): a fixed `margin`
of free RAM is subtracted from the available headroom before utilization is
compared with the threshold.  Kept separate so it can be compared with
`host_passes`, whose boundary the in-tree tests pin down margin-free. -/
def host_passes_with_margin (margin : ℚ) (cfg : Config) (cache : HVCache)
    (now : ℕ) (query : InvResp) (host : HostState) (req : RequestSpec) : Bool :=
  if req.memory_mb < cfg.bigvm_mb then true
  else if is_baremetal req then true
  else
    match (get_hv_size cfg cache now query host).1 with
    | none => false
    | some hv_size_mb =>
        if host.total_usable_ram_mb = 0 then false
        else
          let used_ram_mb := host.total_usable_ram_mb - (host.free_ram_mb - margin)
          let used_ram_percent := used_ram_mb / host.total_usable_ram_mb * 100
          let max_ram_percent := get_max_ram_percent req.memory_mb hv_size_mb
          decide (used_ram_percent ≤ max_ram_percent)

end BigVmClusterUtilizationFilter

namespace BigVmFlavorHostSizeFilter

/-- Modelled from the spec (§4.3 step 5, `memoryMatchWithTolerance`; the
implementation `_memory_match_with_tolerance` is not in the sources):
asymmetric tolerance — actual sizes above the expected tier size never
match, sizes below match down to the tolerance floor. -/
def memory_match_with_tolerance (tolerance_percent expected actual : ℚ) : Bool :=
  decide (expected - expected * tolerance_percent / 100 ≤ actual) &&
    decide (actual ≤ expected)

/-- Splitting a character stream at commas, accumulating the current field
in reverse. -/
def split_on_comma_aux : List Char → List Char → List String
  | [], acc => [String.mk acc.reverse]
  | c :: rest, acc =>
      if c = ',' then
        String.mk acc.reverse :: split_on_comma_aux rest []
      else split_on_comma_aux rest (c :: acc)

/-- Modelled from the spec (§4.3 step 3a): the extra-spec value is a
comma-separated list of fraction labels. -/
def parse_fraction_labels (v : String) : List String :=
  split_on_comma_aux v.toList []

/-- Modelled from the spec (§4.3 `hostPasses`; the implementation is not in
the sources): bypass for small or baremetal requests, fail on unresolvable
HV size; the candidate labels come from the flavor's extra specs when that
mode is enabled (absent key → no candidates → fail; unknown labels skipped)
and from the whole fraction table otherwise; pass iff some candidate label's
fraction of the HV size matches the requested size within tolerance. -/
def host_passes (cfg : Config) (cache : HVCache) (now : ℕ) (query : InvResp)
    (host : HostState) (req : RequestSpec) : Bool :=
  if req.memory_mb < cfg.bigvm_mb then true
  else if is_baremetal req then true
  else
    match (get_hv_size cfg cache now query host).1 with
    | none => false
    | some hv_size_mb =>
        let labels :=
          if cfg.use_flavor_extra_specs then
            match req.extra_specs.lookup cfg.extra_specs_key with
            | none => []
            | some v => parse_fraction_labels v
          else cfg.host_fractions.map Prod.fst
        labels.any fun label =>
          match cfg.host_fractions.lookup label with
          | none => false
          | some frac =>
              memory_match_with_tolerance cfg.hv_size_tolerance_percent
                (hv_size_mb * frac) req.memory_mb

end BigVmFlavorHostSizeFilter

end BigVm

namespace VmwareHost

/-- A value stored in the stats dict built by `VCState.update_status`
(`nova/virt/vmwareapi/host.py`). -/
inductive StatVal where
  | int (n : ℤ) : StatVal
  | rat (x : ℚ) : StatVal
  | str (v : String) : StatVal
  | bool (v : Bool) : StatVal
  | archs (l : List (String × String × String)) : StatVal
deriving DecidableEq

/-- The stats dictionary `VCState._stats` / the `data` dict of
`update_status`, as an association list in insertion order. -/
abbrev StatsDict := List (String × StatVal)

/-- Everything `update_status` reads from the hypervisor management service
when all its queries succeed: datastore capacity/freespace
(`_get_ds_capacity_and_freespace`), the cluster cpu/mem stats
(`vm_util.get_stats_from_cluster`), the about info, the cpu model computed
by `to_cpu_model`, and the DRS flag (`cluster_util._is_drs_enabled`). -/
structure ClusterQuery where
  ds_capacity : ℚ
  ds_freespace : ℚ
  vcpus : ℤ
  reserved_vcpus : ℤ
  mem_total : ℤ
  mem_free : ℤ
  mem_reserved : ℤ
  about_name : String
  about_version : ℤ
  cpu_model : String
  drs_enabled : Bool

/-- Outcome of the query block of `update_status` (host.py lines 80-94):
either the stats queries raise a connection/attribute exception
(`VimConnectionException` / `VimAttributeException`), or they all return. -/
inductive QueryOutcome where
  | connError : QueryOutcome
  | ok (q : ClusterQuery) : QueryOutcome

/-- `units.Gi` from oslo_utils. -/
def Gi : ℚ := 1024 * 1024 * 1024

/-- The observable state of a `VCState` instance together with the
service record its `_set_host_enabled` mutates: the cached stats
`self._stats`, the flag `self._auto_service_disabled`, and the compute-host
service's `disabled` field. -/
structure VCState where
  stats : StatsDict
  auto_service_disabled : Bool
  service_disabled : Bool

/-- `VCState._set_host_enabled` (host.py lines 124-131): flips the service's
`disabled` flag to `not enabled` and records the resulting flag in
`self._auto_service_disabled`. -/
def set_host_enabled (st : VCState) (enabled : Bool) : VCState :=
  { st with service_disabled := !enabled, auto_service_disabled := !enabled }

/-- The `data` dict built by the success path of `update_status`
(host.py lines 96-117), in the order the keys are assigned. -/
def build_data (host_name : String) (q : ClusterQuery) : StatsDict :=
  [("vcpus", StatVal.int q.vcpus),
   ("vcpus_reserved", StatVal.int q.reserved_vcpus),
   ("disk_total", StatVal.rat (q.ds_capacity / Gi)),
   ("disk_available", StatVal.rat (q.ds_freespace / Gi)),
   ("disk_used", StatVal.rat (q.ds_capacity / Gi - q.ds_freespace / Gi)),
   ("host_memory_total", StatVal.int q.mem_total),
   ("host_memory_free", StatVal.int q.mem_free),
   ("host_memory_reserved", StatVal.int q.mem_reserved),
   ("hypervisor_type", StatVal.str q.about_name),
   ("hypervisor_version", StatVal.int q.about_version),
   ("hypervisor_hostname", StatVal.str host_name),
   ("supported_instances", StatVal.archs
      [("i686", "vmware", "hvm"), ("x86_64", "vmware", "hvm")]),
   ("cpu_model", StatVal.str q.cpu_model),
   ("resource_scheduling", StatVal.bool q.drs_enabled)]

/-- `VCState.update_status` (host.py lines 77-122): on a connection or
attribute exception from the stats queries, disable the host service and
return the still-empty `data` dict, leaving `self._stats` untouched; on
success, store the built dict in `self._stats` and, if a previous
`update_status` had auto-disabled the service, re-enable it.  Returns the
returned dict together with the post-call state. -/
def update_status (host_name : String) (st : VCState) (outcome : QueryOutcome) :
    StatsDict × VCState :=
  match outcome with
  | QueryOutcome.connError => ([], set_host_enabled st false)
  | QueryOutcome.ok q =>
      let data := build_data host_name q
      let st1 : VCState := { st with stats := data }
      let st2 := if st1.auto_service_disabled then set_host_enabled st1 true else st1
      (data, st2)

end VmwareHost

namespace BigVm

open BigVmClusterUtilizationFilter BigVmFlavorHostSizeFilter in
/-- C2: `memoryMatchWithTolerance(expected, actual)` is true iff
`actual ≥ expected * (1 - tolerancePercent/100)` and `actual ≤ expected`;
every actual strictly above expected is rejected, actual = expected is
accepted, and at 10% tolerance with expected = 1024 every actual in
[921.6, 1024] is accepted while 920.6 and 1025 are rejected. -/
theorem memory_match_with_tolerance_spec (tol expected actual x : ℚ)
    (hx1 : 4608 / 5 ≤ x) (hx2 : x ≤ 1024) :
    (memory_match_with_tolerance tol expected actual = true ↔
      expected * (1 - tol / 100) ≤ actual ∧ actual ≤ expected)
    ∧ (expected < actual →
        memory_match_with_tolerance tol expected actual = false)
    ∧ memory_match_with_tolerance 10 1024 x = true
    ∧ memory_match_with_tolerance 10 1024 1024 = true
    ∧ memory_match_with_tolerance 10 1024 (4603 / 5) = false
    ∧ memory_match_with_tolerance 10 1024 1025 = false := by
  have hfloor : expected * (1 - tol / 100) = expected - expected * tol / 100 := by
    ring
  refine ⟨?_, ?_, ?_, ?_, ?_, ?_⟩
  · simp only [memory_match_with_tolerance, Bool.and_eq_true, decide_eq_true_eq,
      hfloor]
  · intro hlt
    simp only [memory_match_with_tolerance, Bool.and_eq_false_iff,
      decide_eq_false_iff_not, not_le]
    exact Or.inr hlt
  · simp only [memory_match_with_tolerance, Bool.and_eq_true, decide_eq_true_eq]
    constructor <;> [linarith; linarith]
  · simp only [memory_match_with_tolerance, Bool.and_eq_true, decide_eq_true_eq]
    norm_num
  · simp only [memory_match_with_tolerance, Bool.and_eq_false_iff,
      decide_eq_false_iff_not, not_le]
    left
    norm_num
  · simp only [memory_match_with_tolerance, Bool.and_eq_false_iff,
      decide_eq_false_iff_not, not_le]
    right
    norm_num

/-- Witness for C2: 1000 MB lies inside the 10% tolerance band below
1024 MB and matches. -/
theorem memory_match_with_tolerance_spec_witness :
    BigVmFlavorHostSizeFilter.memory_match_with_tolerance 10 1024 1000
      = true :=
  (memory_match_with_tolerance_spec 10 1024 1000 1000 (by norm_num)
    (by norm_num)).2.2.1

open BigVmClusterUtilizationFilter BigVmFlavorHostSizeFilter in
/-- C3: a host whose HV size resolves to `none` fails both the cluster
utilization filter and the flavor host-size filter for every request at or
above the big-VM threshold that is not baremetal. -/
theorem unresolvable_hv_size_fails_both (cfg : Config) (cache : HVCache)
    (now : ℕ) (query : InvResp) (host : HostState) (req : RequestSpec)
    (hres : (get_hv_size cfg cache now query host).1 = none)
    (hbig : cfg.bigvm_mb ≤ req.memory_mb)
    (hbm : is_baremetal req = false) :
    BigVmClusterUtilizationFilter.host_passes cfg cache now query host req = false
    ∧ BigVmFlavorHostSizeFilter.host_passes cfg cache now query host req = false := by
  have h1 : ¬ req.memory_mb < cfg.bigvm_mb := not_lt.mpr hbig
  constructor
  · simp [BigVmClusterUtilizationFilter.host_passes, h1, hbm, hres]
  · simp [BigVmFlavorHostSizeFilter.host_passes, h1, hbm, hres]

/-- Witness for C3 at a concrete unresolvable host. -/
theorem unresolvable_hv_size_fails_both_witness :
    BigVmClusterUtilizationFilter.host_passes
      ⟨1024, 600, 10, [("full", 1)], false, "host_fraction"⟩ ⟨[], 0⟩ 0
      InvResp.err ⟨"host1", 1024, 12288, none⟩ ⟨1024, [], "flavor"⟩ = false
    ∧ BigVmFlavorHostSizeFilter.host_passes
      ⟨1024, 600, 10, [("full", 1)], false, "host_fraction"⟩ ⟨[], 0⟩ 0
      InvResp.err ⟨"host1", 1024, 12288, none⟩ ⟨1024, [], "flavor"⟩ = false :=
  unresolvable_hv_size_fails_both _ _ _ _ _ _ rfl (le_refl _) rfl

/-- C4: with a non-stale cache entry for the host's uuid (a concrete size or
a cached negative result), `resolve` returns the cached value, leaves the
cache unchanged, and performs no inventory query — uniformly in the
inventory response, which it never consults. -/
theorem get_hv_size_cache_hit (cfg : Config) (cache : HVCache) (now : ℕ)
    (query : InvResp) (host : HostState) (v : Option ℚ)
    (hfresh : ¬ cfg.hv_size_cache_retention_time < now - cache.last_modified)
    (hhit : cache.entries.lookup host.uuid = some v) :
    get_hv_size cfg cache now query host = (v, cache, 0) := by
  simp [get_hv_size, hfresh, hhit]

/-- Witness for C4: a cached entry of 1234 MB is returned untouched. -/
theorem get_hv_size_cache_hit_witness :
    get_hv_size ⟨1024, 600, 10, [], false, "host_fraction"⟩
      ⟨[("host1", some 1234)], 5⟩ 5 InvResp.err
      ⟨"host1", 0, 0, none⟩ =
      (some 1234, ⟨[("host1", some 1234)], 5⟩, 0) :=
  get_hv_size_cache_hit _ _ _ _ _ _ (by decide) rfl

/-- C5: once the table-wide last-modified marker is older than the retention
window, `resolve` performs exactly one inventory query, the value extracted
from that query (the memory ceiling, or `none` on a service error or an
absent record) replaces the stale cached value, and that value is returned;
the rebuilt table carries the fresh marker. -/
theorem get_hv_size_stale_requeries (cfg : Config) (cache : HVCache) (now : ℕ)
    (query : InvResp) (host : HostState)
    (hstale : cfg.hv_size_cache_retention_time < now - cache.last_modified) :
    get_hv_size cfg cache now query host =
      (extract_hv_size query, ⟨[(host.uuid, extract_hv_size query)], now⟩, 1)
    ∧ extract_hv_size InvResp.err = none
    ∧ extract_hv_size (InvResp.resp []) = none := by
  refine ⟨?_, rfl, rfl⟩
  simp [get_hv_size, hstale]

/-- Witness for C5: a stale 1234 MB entry is replaced by the fresh
inventory ceiling of 23 MB. -/
theorem get_hv_size_stale_requeries_witness :
    get_hv_size ⟨1024, 600, 10, [], false, "host_fraction"⟩
      ⟨[("host1", some 1234)], 0⟩ 601
      (InvResp.resp [("MEMORY_MB", some 23)]) ⟨"host1", 0, 0, none⟩ =
      (some 23, ⟨[("host1", some 23)], 601⟩, 1)
    ∧ extract_hv_size InvResp.err = none
    ∧ extract_hv_size (InvResp.resp []) = none :=
  get_hv_size_stale_requeries _ _ _ _ _ (by decide)

open BigVmClusterUtilizationFilter BigVmFlavorHostSizeFilter in
/-- C7: a request below the big-VM threshold, or flagged baremetal, passes
both filters regardless of host state, cluster fill level, cache contents,
or configuration. -/
theorem small_or_baremetal_passes_both (cfg : Config) (cache : HVCache)
    (now : ℕ) (query : InvResp) (host : HostState) (req : RequestSpec)
    (h : req.memory_mb < cfg.bigvm_mb ∨ is_baremetal req = true) :
    BigVmClusterUtilizationFilter.host_passes cfg cache now query host req = true
    ∧ BigVmFlavorHostSizeFilter.host_passes cfg cache now query host req = true := by
  rcases h with h | h
  · constructor
    · simp [BigVmClusterUtilizationFilter.host_passes, h]
    · simp [BigVmFlavorHostSizeFilter.host_passes, h]
  · constructor
    · simp [BigVmClusterUtilizationFilter.host_passes, h]
    · simp [BigVmFlavorHostSizeFilter.host_passes, h]

/-- Witness for C7: a baremetal-flagged request of full big-VM size passes
both filters on an empty, full cluster. -/
theorem small_or_baremetal_passes_both_witness :
    BigVmClusterUtilizationFilter.host_passes
      ⟨1024, 600, 10, [("full", 1)], false, "host_fraction"⟩ ⟨[], 0⟩ 0
      InvResp.err ⟨"host1", 0, 12288, none⟩
      ⟨1024, [("capabilities:cpu_arch", "x86_64")], "flavor"⟩ = true
    ∧ BigVmFlavorHostSizeFilter.host_passes
      ⟨1024, 600, 10, [("full", 1)], false, "host_fraction"⟩ ⟨[], 0⟩ 0
      InvResp.err ⟨"host1", 0, 12288, none⟩
      ⟨1024, [("capabilities:cpu_arch", "x86_64")], "flavor"⟩ = true :=
  small_or_baremetal_passes_both _ _ _ _ _ _ (Or.inr rfl)

/-- C8: the cluster utilization filter never reads the host's RAM
allocation ratio: changing (or dropping) that attribute while holding
`free_ram_mb` and `total_usable_ram_mb` fixed cannot change the decision. -/
theorem cluster_filter_ignores_alloc_ratio (cfg : Config) (cache : HVCache)
    (now : ℕ) (query : InvResp) (host : HostState) (req : RequestSpec)
    (x : Option ℚ) :
    BigVmClusterUtilizationFilter.host_passes cfg cache now query
        { host with ram_allocation_ratio := x } req
      = BigVmClusterUtilizationFilter.host_passes cfg cache now query host req :=
  rfl

end BigVm

namespace VmwareHost

/-- C10: when the stats queries of `update_status` raise a connection or
attribute exception, the call returns the empty dict, leaves the cached
`self._stats` unchanged, and disables the compute-host service (recording
that it did so); a subsequent successful `update_status` stores the freshly
built stats and re-enables the service it had disabled. -/
theorem update_status_conn_error_spec (host_name : String) (st : VCState)
    (q : ClusterQuery) :
    (update_status host_name st QueryOutcome.connError).1 = []
    ∧ (update_status host_name st QueryOutcome.connError).2.stats = st.stats
    ∧ (update_status host_name st QueryOutcome.connError).2.service_disabled = true
    ∧ (update_status host_name st QueryOutcome.connError).2.auto_service_disabled
        = true
    ∧ (update_status host_name
          (update_status host_name st QueryOutcome.connError).2
          (QueryOutcome.ok q)).2.service_disabled = false
    ∧ (update_status host_name
          (update_status host_name st QueryOutcome.connError).2
          (QueryOutcome.ok q)).2.stats = build_data host_name q := by
  refine ⟨rfl, rfl, rfl, rfl, ?_, ?_⟩ <;>
    simp [update_status, set_host_enabled]

end VmwareHost

namespace BigVm

/-- Evaluation lemma: past the bypasses, with a resolved HV size and a
nonzero cluster size, the cluster filter's decision is the utilization
comparison. -/
theorem cluster_host_passes_eval (cfg : Config) (cache : HVCache) (now : ℕ)
    (query : InvResp) (host : HostState) (req : RequestSpec) (hv : ℚ)
    (h1 : ¬ req.memory_mb < cfg.bigvm_mb) (hbm : is_baremetal req = false)
    (hres : (get_hv_size cfg cache now query host).1 = some hv)
    (ht : ¬ host.total_usable_ram_mb = 0) :
    BigVmClusterUtilizationFilter.host_passes cfg cache now query host req =
      decide ((host.total_usable_ram_mb - host.free_ram_mb) /
          host.total_usable_ram_mb * 100 ≤
        BigVmClusterUtilizationFilter.get_max_ram_percent req.memory_mb hv) := by
  simp [BigVmClusterUtilizationFilter.host_passes, h1, hbm, hres, ht]

/-- Evaluation lemma for the margin variant of the pass rule. -/
theorem cluster_host_passes_with_margin_eval (margin : ℚ) (cfg : Config)
    (cache : HVCache) (now : ℕ) (query : InvResp) (host : HostState)
    (req : RequestSpec) (hv : ℚ)
    (h1 : ¬ req.memory_mb < cfg.bigvm_mb) (hbm : is_baremetal req = false)
    (hres : (get_hv_size cfg cache now query host).1 = some hv)
    (ht : ¬ host.total_usable_ram_mb = 0) :
    BigVmClusterUtilizationFilter.host_passes_with_margin margin cfg cache now
        query host req =
      decide ((host.total_usable_ram_mb - (host.free_ram_mb - margin)) /
          host.total_usable_ram_mb * 100 ≤
        BigVmClusterUtilizationFilter.get_max_ram_percent req.memory_mb hv) := by
  simp [BigVmClusterUtilizationFilter.host_passes_with_margin, h1, hbm, hres, ht]

/-- The C1 scenario: one of 12 hosts of HV size `S`, viewed through the
cluster aggregates, with `free` MB free cluster-wide. -/
def c1_host (S free : ℚ) : HostState := ⟨"host1", free, 12 * S, none⟩

/-- The C1 request: a big VM of exactly the HV size. -/
def c1_req (S : ℚ) : RequestSpec := ⟨S, [], "bigvm"⟩

/-- The C1 cache: the host's HV size already resolved and fresh. -/
def c1_cache (S : ℚ) : HVCache := ⟨[("host1", some S)], 0⟩

/-- A concrete configuration used to instantiate the C1 scenario. -/
def c1_cfg : Config := ⟨1024, 600, 10, [("full", 1)], false, "host_fraction"⟩

/-- C1 (amended): with HV size `S`, requested size `S`, and a 12-host
cluster of total size `12·S`, free RAM exactly at
`total − total·maxRamPercent/100` passes and one MB less fails — the
boundary is exactly `usedPercent ≤ maxRamPercent`, with no fixed safety
margin. -/
theorem cluster_boundary_exact (cfg : Config) (S : ℚ) (hS : 0 < S)
    (hT : cfg.bigvm_mb ≤ S) :
    BigVmClusterUtilizationFilter.host_passes cfg (c1_cache S) 0 InvResp.err
      (c1_host S (12 * S - 12 * S *
        BigVmClusterUtilizationFilter.get_max_ram_percent S S / 100))
      (c1_req S) = true
    ∧ BigVmClusterUtilizationFilter.host_passes cfg (c1_cache S) 0 InvResp.err
      (c1_host S (12 * S - 12 * S *
        BigVmClusterUtilizationFilter.get_max_ram_percent S S / 100 - 1))
      (c1_req S) = false := by
  have hS0 : S ≠ 0 := ne_of_gt hS
  have h12 : (0 : ℚ) < 12 * S := by positivity
  have h12' : ¬ (12 * S : ℚ) = 0 := ne_of_gt h12
  have h1 : ¬ (c1_req S).memory_mb < cfg.bigvm_mb := not_lt.mpr hT
  have hbm : is_baremetal (c1_req S) = false := rfl
  have hres : ∀ free, (get_hv_size cfg (c1_cache S) 0 InvResp.err
      (c1_host S free)).1 = some S := by
    intro free
    simp [get_hv_size, c1_cache, c1_host]
  have hmax : BigVmClusterUtilizationFilter.get_max_ram_percent S S = 50 := by
    rw [BigVmClusterUtilizationFilter.get_max_ram_percent, div_self hS0]
    norm_num
  constructor
  · rw [cluster_host_passes_eval cfg (c1_cache S) 0 InvResp.err _ _ S h1 hbm
      (hres _) h12', decide_eq_true_eq]
    simp only [c1_req, c1_host]
    rw [hmax]
    rw [show (12 * S - (12 * S - 12 * S * 50 / 100)) = 6 * S by ring]
    rw [div_mul_eq_mul_div, div_le_iff₀ h12]
    ring_nf
    linarith
  · rw [cluster_host_passes_eval cfg (c1_cache S) 0 InvResp.err _ _ S h1 hbm
      (hres _) h12', decide_eq_false_iff_not, not_le]
    simp only [c1_req, c1_host]
    rw [hmax]
    rw [show (12 * S - (12 * S - 12 * S * 50 / 100 - 1)) = 6 * S + 1 by ring]
    rw [div_mul_eq_mul_div, lt_div_iff₀ h12]
    ring_nf
    linarith

/-- Witness for C1 at HV size 2048 against the concrete configuration. -/
theorem cluster_boundary_exact_witness :
    BigVmClusterUtilizationFilter.host_passes c1_cfg (c1_cache 2048) 0
      InvResp.err
      (c1_host 2048 (12 * 2048 - 12 * 2048 *
        BigVmClusterUtilizationFilter.get_max_ram_percent 2048 2048 / 100))
      (c1_req 2048) = true
    ∧ BigVmClusterUtilizationFilter.host_passes c1_cfg (c1_cache 2048) 0
      InvResp.err
      (c1_host 2048 (12 * 2048 - 12 * 2048 *
        BigVmClusterUtilizationFilter.get_max_ram_percent 2048 2048 / 100 - 1))
      (c1_req 2048) = false :=
  cluster_boundary_exact c1_cfg 2048 (by norm_num) (by norm_num [c1_cfg])

/-- C1 counterexample to the claim's safety-margin clause: at HV size 1024,
total 12288 and free RAM 6144 — exactly the margin-free boundary for the
50% threshold — the filter passes, while the spec-worded rule that reserves
a fixed few hundred MB (here 256) of slack before the boundary rejects; so
the implemented pass/fail boundary carries no such margin. -/
theorem cluster_no_safety_margin :
    BigVmClusterUtilizationFilter.host_passes c1_cfg (c1_cache 1024) 0
      InvResp.err (c1_host 1024 6144) (c1_req 1024) = true
    ∧ BigVmClusterUtilizationFilter.host_passes_with_margin 256 c1_cfg
      (c1_cache 1024) 0 InvResp.err (c1_host 1024 6144) (c1_req 1024)
      = false := by
  have h1 : ¬ (c1_req 1024).memory_mb < c1_cfg.bigvm_mb := by
    norm_num [c1_req, c1_cfg]
  have hres : (get_hv_size c1_cfg (c1_cache 1024) 0 InvResp.err
      (c1_host 1024 6144)).1 = some 1024 := by
    simp [get_hv_size, c1_cache, c1_host, c1_cfg]
  have ht : ¬ (c1_host 1024 6144).total_usable_ram_mb = 0 := by
    norm_num [c1_host]
  constructor
  · rw [cluster_host_passes_eval c1_cfg (c1_cache 1024) 0 InvResp.err _ _ 1024
      h1 rfl hres ht, decide_eq_true_eq]
    show ((12 : ℚ) * 1024 - 6144) / (12 * 1024) * 100 ≤
      BigVmClusterUtilizationFilter.get_max_ram_percent 1024 1024
    rw [BigVmClusterUtilizationFilter.get_max_ram_percent]
    norm_num
  · rw [cluster_host_passes_with_margin_eval 256 c1_cfg (c1_cache 1024) 0
      InvResp.err _ _ 1024 h1 rfl hres ht, decide_eq_false_iff_not, not_le]
    show BigVmClusterUtilizationFilter.get_max_ram_percent 1024 1024 <
      ((12 : ℚ) * 1024 - (6144 - 256)) / (12 * 1024) * 100
    rw [BigVmClusterUtilizationFilter.get_max_ram_percent]
    norm_num

/-- C9: the threshold curve is monotonically decreasing in the ratio
`requested / hvSize`; ratio 1 gives the strictest threshold; the threshold
stays below 100% for every positive request but comes within any `ε` of
100% for small enough ratios. -/
theorem max_ram_percent_monotone (hv r1 r2 ε : ℚ) (hh : 0 < hv) (hr1 : 0 < r1)
    (h12 : r1 < r2) (hr2 : r2 ≤ hv) (hε : 0 < ε) :
    BigVmClusterUtilizationFilter.get_max_ram_percent r2 hv ≤
      BigVmClusterUtilizationFilter.get_max_ram_percent r1 hv
    ∧ BigVmClusterUtilizationFilter.get_max_ram_percent hv hv ≤
      BigVmClusterUtilizationFilter.get_max_ram_percent r1 hv
    ∧ BigVmClusterUtilizationFilter.get_max_ram_percent r1 hv < 100
    ∧ ∃ r : ℚ, 0 < r ∧ r ≤ hv ∧
        100 - ε < BigVmClusterUtilizationFilter.get_max_ram_percent r hv := by
  have hh0 : hv ≠ 0 := ne_of_gt hh
  refine ⟨?_, ?_, ?_, ?_⟩
  · have hd : r1 / hv ≤ r2 / hv := by gcongr
    simp only [BigVmClusterUtilizationFilter.get_max_ram_percent]
    linarith
  · have hr1h : r1 ≤ hv := le_of_lt (lt_of_lt_of_le h12 hr2)
    have hd : r1 / hv ≤ hv / hv := by gcongr
    rw [div_self hh0] at hd
    simp only [BigVmClusterUtilizationFilter.get_max_ram_percent]
    rw [div_self hh0]
    linarith
  · have hd : 0 < r1 / hv := div_pos hr1 hh
    simp only [BigVmClusterUtilizationFilter.get_max_ram_percent]
    linarith
  · refine ⟨hv * min ε 50 / 100, ?_, ?_, ?_⟩
    · have hm : 0 < min ε 50 := lt_min hε (by norm_num)
      positivity
    · have hm : min ε 50 ≤ 50 := min_le_right _ _
      have h2 : hv * min ε 50 ≤ hv * 50 := mul_le_mul_of_nonneg_left hm hh.le
      linarith
    · simp only [BigVmClusterUtilizationFilter.get_max_ram_percent]
      have hrh : hv * min ε 50 / 100 / hv = min ε 50 / 100 := by
        field_simp
        ring
      rw [hrh]
      have hm1 : min ε 50 ≤ ε := min_le_left _ _
      have hm : 0 < min ε 50 := lt_min hε (by norm_num)
      linarith

/-- C6: with the use-flavor-extra-specs option enabled, for a big,
non-baremetal request the flavor host-size filter fails when the
fraction-label key is absent from the extra specs, fails when no label in
the comma-separated value is defined in the fraction table, and passes as
soon as one listed label is defined and its fraction of the HV size matches
the requested size within tolerance — unknown labels alongside it are
skipped, not fatal. -/
theorem flavor_extra_specs_spec (cfg : Config) (cache : HVCache) (now : ℕ)
    (query : InvResp) (host : HostState) (req : RequestSpec) (hv : ℚ)
    (huse : cfg.use_flavor_extra_specs = true)
    (hbig : cfg.bigvm_mb ≤ req.memory_mb)
    (hbm : is_baremetal req = false) :
    (req.extra_specs.lookup cfg.extra_specs_key = none →
      BigVmFlavorHostSizeFilter.host_passes cfg cache now query host req
        = false)
    ∧ (∀ v, req.extra_specs.lookup cfg.extra_specs_key = some v →
        (∀ lab ∈ BigVmFlavorHostSizeFilter.parse_fraction_labels v,
          cfg.host_fractions.lookup lab = none) →
        BigVmFlavorHostSizeFilter.host_passes cfg cache now query host req
          = false)
    ∧ (∀ v lab frac, req.extra_specs.lookup cfg.extra_specs_key = some v →
        lab ∈ BigVmFlavorHostSizeFilter.parse_fraction_labels v →
        cfg.host_fractions.lookup lab = some frac →
        (get_hv_size cfg cache now query host).1 = some hv →
        BigVmFlavorHostSizeFilter.memory_match_with_tolerance
          cfg.hv_size_tolerance_percent (hv * frac) req.memory_mb = true →
        BigVmFlavorHostSizeFilter.host_passes cfg cache now query host req
          = true) := by
  have h1 : ¬ req.memory_mb < cfg.bigvm_mb := not_lt.mpr hbig
  refine ⟨?_, ?_, ?_⟩
  · intro hkey
    cases h : (get_hv_size cfg cache now query host).1 with
    | none => simp [BigVmFlavorHostSizeFilter.host_passes, h1, hbm, h]
    | some hv0 =>
        simp [BigVmFlavorHostSizeFilter.host_passes, h1, hbm, h, huse, hkey]
  · intro v hkey hnone
    cases h : (get_hv_size cfg cache now query host).1 with
    | none => simp [BigVmFlavorHostSizeFilter.host_passes, h1, hbm, h]
    | some hv0 =>
        simp only [BigVmFlavorHostSizeFilter.host_passes, h1, hbm, h, huse,
          hkey, if_false, if_true, Bool.false_eq_true, ite_true, ite_false]
        rw [List.any_eq_false]
        intro lab hmem
        rw [hnone lab hmem]
        simp
  · intro v lab frac hkey hmem hfrac hres hmatch
    simp only [BigVmFlavorHostSizeFilter.host_passes]
    rw [if_neg h1]
    simp only [hbm, Bool.false_eq_true, if_false, hres, huse, if_true, hkey]
    rw [List.any_eq_true]
    refine ⟨lab, hmem, ?_⟩
    rw [hfrac]
    exact hmatch

/-- The configuration of the C6 witness: extra-specs mode on, fractions
full and half, 1 TiB big-VM threshold, 10% tolerance. -/
def c6_cfg : Config :=
  ⟨1048576, 600, 10, [("full", 1), ("half", 1 / 2)], true, "host_fraction"⟩

/-- Witness for C6: with HV size `2·bigvm_mb + 1024` cached and the extra
spec `host_fraction = "broken,half"`, a request of `bigvm_mb` passes — the
unknown label `broken` is skipped and `half` matches. -/
theorem flavor_extra_specs_spec_witness :
    BigVmFlavorHostSizeFilter.host_passes c6_cfg ⟨[("host1", some 2098176)], 0⟩
      0 InvResp.err ⟨"host1", 0, 0, none⟩
      ⟨1048576, [("host_fraction", "broken,half")], "random-name"⟩ = true :=
  (flavor_extra_specs_spec c6_cfg ⟨[("host1", some 2098176)], 0⟩ 0 InvResp.err
      ⟨"host1", 0, 0, none⟩
      ⟨1048576, [("host_fraction", "broken,half")], "random-name"⟩ 2098176
      rfl (le_refl _) rfl).2.2
    "broken,half" "half" (1 / 2) rfl (by decide) rfl rfl
    (by simp only [BigVmFlavorHostSizeFilter.memory_match_with_tolerance,
          Bool.and_eq_true, decide_eq_true_eq]
        norm_num [c6_cfg])

/-- Witness for C9 at hv = 4, r1 = 1, r2 = 2, ε = 1. -/
theorem max_ram_percent_monotone_witness :
    BigVmClusterUtilizationFilter.get_max_ram_percent 2 4 ≤
      BigVmClusterUtilizationFilter.get_max_ram_percent 1 4
    ∧ BigVmClusterUtilizationFilter.get_max_ram_percent 4 4 ≤
      BigVmClusterUtilizationFilter.get_max_ram_percent 1 4
    ∧ BigVmClusterUtilizationFilter.get_max_ram_percent 1 4 < 100
    ∧ ∃ r : ℚ, 0 < r ∧ r ≤ 4 ∧
        100 - 1 < BigVmClusterUtilizationFilter.get_max_ram_percent r 4 :=
  max_ram_percent_monotone 4 1 2 1 (by norm_num) (by norm_num) (by norm_num)
    (by norm_num) (by norm_num)

end BigVm
